import Mathlib

/-!
Verification of the draftsman-no-9 repository against its specification.

Part 1: shallow embedding of the implemented source files
  - packages/core/src/index.ts  (parseInvocationMode, describeInvocation)
  - apps/api/src/server.ts      (createApiFetchHandler)
  - apps/worker/src/worker.ts   (resolveWorkerPollMs)

Part 2: models of the job-orchestration engine, which the repository
specifies in its design documents but does not yet implement under the
source tree; each such definition carries a `Modelled from the spec:`
doc comment.

JavaScript strings are modelled as `List Char`; trimming uses
`Char.isWhitespace` and lowercasing maps the ASCII range, which agree
with the JavaScript operations on the ASCII inputs involved.
-/

/-- The two invocation modes of packages/core/src/index.ts
(`export type InvocationMode = "investigate" | "fix"`). -/
inductive InvocationMode
  | investigate
  | fix
deriving DecidableEq, Repr

/-- JavaScript `String.prototype.trim`: drop leading and trailing
whitespace. -/
def jsTrim (cs : List Char) : List Char :=
  ((cs.dropWhile Char.isWhitespace).reverse.dropWhile Char.isWhitespace).reverse

/-- JavaScript `String.prototype.toLowerCase`, restricted to the ASCII
range (the only range the command strings exercise). -/
def jsToLower (cs : List Char) : List Char :=
  cs.map (fun c => if 'A' ≤ c && c ≤ 'Z' then Char.ofNat (c.toNat + 32) else c)

/-- Embeds `parseInvocationMode` from packages/core/src/index.ts:
`const normalized = text?.trim().toLowerCase();` followed by two string
equality checks and a `null` fallback. -/
def parseInvocationMode (text : Option String) : Option InvocationMode :=
  let normalized := text.map (fun s => jsToLower (jsTrim s.data))
  if normalized = some "@draftsman investigate".data then
    some .investigate
  else if normalized = some "@draftsman fix".data then
    some .fix
  else
    none

/-- Embeds `describeInvocation` from packages/core/src/index.ts. -/
def describeInvocation : String :=
  "@draftsman investigate | @draftsman fix"

/-! ### JavaScript number coercion model (for `resolveWorkerPollMs`)

The worker calls `Number(envValue)` on a `string | undefined`.  We model
the result as a rational, NaN, or a signed infinity, following the
ECMAScript ToNumber/StringToNumber grammar (whitespace trimming, empty
string ↦ 0, signed decimal literals with fraction and exponent, signed
`Infinity`, unsigned hex/octal/binary literals).  Float64 rounding and
overflow-to-infinity of astronomically large literals are abstracted:
finite literal values are kept exact as rationals. -/

/-- A JavaScript number: NaN, ±Infinity, or a finite value. -/
inductive JSNum
  | nan
  | posInf
  | negInf
  | finite (q : ℚ)
deriving DecidableEq, Repr

/-- Decimal digit value of a character. -/
def digitVal (c : Char) : Nat := c.toNat - 48

/-- Value of a list of decimal digits, most significant first. -/
def decDigitsVal (cs : List Char) : Nat :=
  cs.foldl (fun a c => 10 * a + digitVal c) 0

/-- Hex digit recognizer. -/
def isHexDigit (c : Char) : Bool :=
  c.isDigit || ('a' ≤ c && c ≤ 'f') || ('A' ≤ c && c ≤ 'F')

/-- Hex digit value. -/
def hexDigitVal (c : Char) : Nat :=
  if c.isDigit then c.toNat - 48
  else if 'a' ≤ c && c ≤ 'f' then c.toNat - 87
  else c.toNat - 55

/-- Value of a digit list in a given base with a given digit valuation. -/
def radixVal (base : Nat) (dv : Char → Nat) (cs : List Char) : Nat :=
  cs.foldl (fun a c => base * a + dv c) 0

/-- Strips one optional leading sign, returning the sign as ±1. -/
def stripSign : List Char → Int × List Char
  | '+' :: cs => (1, cs)
  | '-' :: cs => (-1, cs)
  | cs => (1, cs)

/-- Splits at the first exponent marker `e`/`E`, if any. -/
def splitAtExp (cs : List Char) : List Char × Option (List Char) :=
  match cs.findIdx? (fun c => c = 'e' || c = 'E') with
  | none => (cs, none)
  | some i => (cs.take i, some (cs.drop (i + 1)))

/-- Splits a mantissa at its decimal point; `none` if it has two dots. -/
def splitAtDot (cs : List Char) : Option (List Char × List Char) :=
  match cs.findIdx? (· = '.') with
  | none => some (cs, [])
  | some i =>
    let rest := cs.drop (i + 1)
    if rest.any (· = '.') then none else some (cs.take i, rest)

/-- Parses a signed exponent part (digits required). -/
def parseExpPart (cs : List Char) : Option Int :=
  let (sign, ds) := stripSign cs
  if !ds.isEmpty && ds.all (·.isDigit) then
    some (sign * (decDigitsVal ds : Int))
  else
    none

/-- Exact value of the signed decimal literal with integer digits `ip`,
fraction digits `fp` and decimal exponent `k`:
`sign * (ipVal.fpVal) * 10^k`, built with integer arithmetic only. -/
def decLitVal (sign : Int) (ip fp : List Char) (k : Int) : ℚ :=
  let num : Int := sign * ((decDigitsVal ip * 10 ^ fp.length + decDigitsVal fp : Nat) : Int)
  if 0 ≤ k then
    mkRat (num * (10 : Int) ^ k.toNat) (10 ^ fp.length)
  else
    mkRat num (10 ^ fp.length * 10 ^ (-k).toNat)

/-- Parses an unsigned decimal literal `digits [. digits] [e sign digits]`
(at least one mantissa digit required), applying the given sign. -/
def parseDec (sign : Int) (cs : List Char) : Option ℚ :=
  let (mant, expPart) := splitAtExp cs
  match splitAtDot mant with
  | none => none
  | some (ip, fp) =>
    if ip.all (·.isDigit) && fp.all (·.isDigit) && (!ip.isEmpty || !fp.isEmpty) then
      match expPart with
      | none => some (decLitVal sign ip fp 0)
      | some e => (parseExpPart e).map (decLitVal sign ip fp)
    else
      none

/-- Parses the unsigned non-decimal integer literals `0x…`, `0o…`, `0b…`. -/
def parseNonDecimal (cs : List Char) : Option ℚ :=
  match cs with
  | '0' :: x :: rest =>
    if (x = 'x' || x = 'X') && !rest.isEmpty && rest.all isHexDigit then
      some (mkRat (radixVal 16 hexDigitVal rest : Int) 1)
    else if (x = 'o' || x = 'O') && !rest.isEmpty
        && rest.all (fun c => '0' ≤ c && c ≤ '7') then
      some (mkRat (radixVal 8 digitVal rest : Int) 1)
    else if (x = 'b' || x = 'B') && !rest.isEmpty
        && rest.all (fun c => c = '0' || c = '1') then
      some (mkRat (radixVal 2 digitVal rest : Int) 1)
    else
      none
  | _ => none

/-- ECMAScript `Number(value)` for `string | undefined` arguments:
`Number(undefined) = NaN`; for strings, trim whitespace, map the empty
string to `0`, then parse a numeric literal, yielding NaN on failure. -/
def jsStringToNumber : Option String → JSNum
  | none => .nan
  | some s =>
    let cs := jsTrim s.data
    if cs.isEmpty then .finite 0
    else
      match parseNonDecimal cs with
      | some q => .finite q
      | none =>
        let (sign, rest) := stripSign cs
        if rest = "Infinity".data then
          if sign = 1 then .posInf else .negInf
        else
          match parseDec sign rest with
          | some q => .finite q
          | none => .nan

/-- From apps/worker/src/worker.ts: `const DEFAULT_WORKER_POLL_MS = 5000`. -/
def DEFAULT_WORKER_POLL_MS : ℚ := 5000

/-- Embeds `resolveWorkerPollMs` from apps/worker/src/worker.ts:
`const parsed = Number(envValue); if (!Number.isFinite(parsed) || parsed <= 0)
return DEFAULT_WORKER_POLL_MS; return parsed;`. -/
def resolveWorkerPollMs (envValue : Option String) : ℚ :=
  match jsStringToNumber envValue with
  | .finite parsed =>
    if parsed ≤ 0 then DEFAULT_WORKER_POLL_MS else parsed
  | _ => DEFAULT_WORKER_POLL_MS

/-! ### API fetch handler (apps/api/src/server.ts) -/

/-- The JSON body of a Trello webhook request, as the handler reads it:
`const payload = (await req.json()) as { text?: string }`. -/
structure TrelloWebhookBody where
  text : Option String
deriving DecidableEq, Repr

/-- The observable response bodies the handler can produce. -/
inductive ApiBody
  /-- `Response.json({ ok: true, service: "api" })` -/
  | health
  /-- `Response.json({ accepted, mode })` -/
  | webhook (accepted : Bool) (mode : Option InvocationMode)
  /-- `new Response("Not Found", { status: 404 })` -/
  | notFoundText
deriving DecidableEq, Repr

/-- An HTTP response: status code plus body. -/
structure ApiResponse where
  status : Nat
  body : ApiBody
deriving DecidableEq, Repr

/-- An incoming request as the handler inspects it: the URL pathname, the
method, and the parsed JSON body (only read on the webhook route). -/
structure ApiRequest where
  pathname : String
  method : String
  jsonBody : TrelloWebhookBody
deriving DecidableEq, Repr

/-- Embeds `createApiFetchHandler` from apps/api/src/server.ts: the
`/health` check first (any method), then `POST /webhooks/trello`
(parse the body's `text` field), else a 404 `"Not Found"` response.
`Response.json` produces status 200. -/
def createApiFetchHandler (req : ApiRequest) : ApiResponse :=
  if req.pathname = "/health" then
    ⟨200, .health⟩
  else if req.pathname = "/webhooks/trello" && req.method = "POST" then
    ⟨200, .webhook true (parseInvocationMode req.jsonBody.text)⟩
  else
    ⟨404, .notFoundText⟩

/-! ## Part 2: the job-orchestration engine, modelled from the spec

The design documents (README, BullMQ/Trello plans, the API design doc)
specify the engine; the source tree implements only the thin API/worker
shell above.  Every definition below is therefore a model of the
specified behaviour. -/

/-! ### Idempotency Gate (spec §4.1) -/

/-- Initial job fields produced by the event's builder (source, mode,
repo of spec §3). -/
structure JobFields where
  source : String
  mode : Option InvocationMode
  repo : String
deriving DecidableEq, Repr

/-- A job row as the Idempotency Gate sees it: identity, unique dedup
key, and builder-supplied initial fields. -/
structure Job where
  job_id : Nat
  dedup_key : String
  fields : JobFields
deriving DecidableEq, Repr

/-- The job store: persisted rows plus the next fresh id. -/
structure JobStore where
  jobs : List Job
  nextId : Nat
deriving DecidableEq, Repr

/-- Modelled from the spec: `dedup_key = source + ":" + external_event_id`
(§4.1); the repository does not yet implement the gate. -/
def dedupKeyOf (source externalEventId : String) : String :=
  source ++ ":" ++ externalEventId

/-- Number of stored jobs holding a given dedup key. -/
def countKey (st : JobStore) (k : String) : Nat :=
  (st.jobs.filter (fun j => j.dedup_key = k)).length

/-- The stored jobs holding a given dedup key. -/
def jobsWithKey (st : JobStore) (k : String) : List Job :=
  st.jobs.filter (fun j => j.dedup_key = k)

/-- Result of `create_or_get`: the new store, the job, and the
`deduped` flag. -/
structure CreateResult where
  store : JobStore
  job : Job
  deduped : Bool
deriving DecidableEq, Repr

/-- Modelled from the spec: `create_or_get(dedup_key, builder)`
atomically returns an existing job (deduped=true) if one already holds
that key, otherwise inserts a new job (deduped=false) (§4.1); the
repository does not yet implement the gate. -/
def create_or_get (st : JobStore) (k : String) (builder : JobFields) : CreateResult :=
  match st.jobs.find? (fun j => j.dedup_key = k) with
  | some j => ⟨st, j, true⟩
  | none =>
    let j : Job := ⟨st.nextId, k, builder⟩
    ⟨⟨st.jobs ++ [j], st.nextId + 1⟩, j, false⟩

/-- Modelled from the spec: handling one external event = compute the
dedup key and call `create_or_get` (§4.1 input contract). -/
def handleExternalEvent (st : JobStore) (source externalEventId : String)
    (builder : JobFields) : CreateResult :=
  create_or_get st (dedupKeyOf source externalEventId) builder

/-- Runs a whole list of external events through the gate, keeping only
the store (the other callers of §8's "all callers observe the same
job_id"). -/
def runEvents (st : JobStore) (evs : List (String × String × JobFields)) : JobStore :=
  evs.foldl (fun s e => (handleExternalEvent s e.1 e.2.1 e.2.2).store) st

/-! ### Job state machine and Transition Guard (spec §4.2) -/

/-- The eight job states of spec §4.2. -/
inductive JobStatus
  | queued
  | running
  | waiting_for_input
  | resumed
  | completed
  | failed
  | canceled
  | expired
deriving DecidableEq, Repr

/-- Modelled from the spec: the legal state-machine edges of §4.2. -/
def legalEdge : JobStatus → JobStatus → Bool
  | .queued, .running => true
  | .running, .waiting_for_input => true
  | .waiting_for_input, .resumed => true
  | .resumed, .running => true
  | .running, .completed => true
  | .running, .failed => true
  | .running, .canceled => true
  | .waiting_for_input, .canceled => true
  | .waiting_for_input, .expired => true
  | .queued, .canceled => true
  | _, _ => false

/-- A persisted job row from the Transition Guard's point of view:
status plus optimistic-concurrency version. -/
structure JobRow where
  status : JobStatus
  version : Nat
deriving DecidableEq, Repr

/-- The errors a transition attempt can produce. -/
inductive TransitionError
  | staleState
  | illegalEdge
deriving DecidableEq, Repr

/-- Modelled from the spec: `transition(job_id, expected_status,
new_status, payload)` fails with a stale-state error if the persisted
status/version no longer matches what the caller read (`expected`), and
only the legal edges of §4.2 can succeed; success bumps the version
(compare-and-swap, §5 and §9). -/
def transition (row : JobRow) (expected : JobRow) (new_status : JobStatus) :
    Except TransitionError JobRow :=
  if row.status = expected.status ∧ row.version = expected.version then
    if legalEdge row.status new_status then
      .ok ⟨new_status, row.version + 1⟩
    else
      .error .illegalEdge
  else
    .error .staleState

/-- Store-level application of a transition attempt: on any error the
persisted row is left unchanged. -/
def applyTransition (row : JobRow) (expected : JobRow) (new_status : JobStatus) :
    JobRow × Option TransitionError :=
  match transition row expected new_status with
  | .ok r => (r, none)
  | .error e => (row, some e)

/-! ### Questions, expiry and answers (spec §4.4, §4.5) -/

/-- Question lifecycle states (spec §3): open, answered, expired. -/
inductive QuestionStatus
  | open_
  | answered
  | expired
deriving DecidableEq, Repr

/-- The state of one paused job together with its single open question,
as the expiry/answer race of §4.4/§9 sees it. -/
structure PausedJobState where
  job : JobRow
  question : QuestionStatus
  expires_at : Nat
deriving DecidableEq, Repr

/-- Modelled from the spec (§4.4): the expiry handler reloads the
question; if its status is not open it is a no-op; if open it re-checks
the wall clock, and only when `now ≥ expires_at` performs the
status-guarded close: question→expired and job
waiting_for_input→expired. -/
def expireHandler (now : Nat) (st : PausedJobState) : PausedJobState :=
  if st.question = .open_ then
    if st.expires_at ≤ now then
      if st.job.status = .waiting_for_input then
        ⟨⟨.expired, st.job.version + 1⟩, .expired, st.expires_at⟩
      else
        st
    else
      st
  else
    st

/-- Modelled from the spec (§4.5 success path, as the race of §9 sees
it): accept an answer only against an open, unexpired question, closing
it (question→answered) and moving the job
waiting_for_input→resumed with a status-guarded transition. -/
def acceptAnswer (now : Nat) (st : PausedJobState) : PausedJobState :=
  if st.question = .open_ then
    if now < st.expires_at then
      if st.job.status = .waiting_for_input then
        ⟨⟨.resumed, st.job.version + 1⟩, .answered, st.expires_at⟩
      else
        st
    else
      st
  else
    st

/-! ### Resume Ingestion (spec §4.5, full validation ladder) -/

/-- A question row (spec §3). -/
structure Question where
  question_id : Nat
  job_id : Nat
  checkpoint_id : Nat
  asked_at : Nat
  expires_at : Nat
  qstatus : QuestionStatus
deriving DecidableEq, Repr

/-- An answer row (spec §3); immutable once written. -/
structure Answer where
  answer_id : Nat
  question_id : Nat
  source : String
  responder_id : String
  payload : String
  source_event_id : String
deriving DecidableEq, Repr

/-- The successful outcome `{job_id, accepted: true}` of §4.5. -/
structure AcceptOk where
  job_id : Nat
  accepted : Bool
deriving DecidableEq, Repr

/-- The typed rejection reasons of §4.5; `DuplicateAnswer` carries the
prior outcome, which is returned rather than reprocessing. -/
inductive AcceptError
  | QuestionNotFound
  | QuestionClosed
  | QuestionExpired
  | Unauthorized
  | DuplicateAnswer (prior : AcceptOk)
deriving DecidableEq, Repr

/-- The store slice Resume Ingestion touches: questions, per-job rows,
persisted answers, recorded outcomes per source_event_id, the resume
action queue, and the responders holding policy scope. -/
structure IngestState where
  questions : List Question
  jobs : List (Nat × JobRow)
  answers : List Answer
  recorded : List (String × AcceptOk)
  resumeQueue : List Nat
  authorized : List String
deriving DecidableEq, Repr

/-- Marks one question answered. -/
def closeQuestion (qs : List Question) (qid : Nat) : List Question :=
  qs.map (fun q => if q.question_id = qid then { q with qstatus := .answered } else q)

/-- Status-guarded job move waiting_for_input→resumed on one row. -/
def resumeJobRow (jobs : List (Nat × JobRow)) (jid : Nat) : List (Nat × JobRow) :=
  jobs.map (fun p =>
    if p.1 = jid ∧ p.2.status = .waiting_for_input then
      (p.1, ⟨.resumed, p.2.version + 1⟩)
    else p)

/-- Modelled from the spec (§4.5):
`validate_and_accept(question_id, source, responder_id, payload,
source_event_id)` fails QuestionNotFound if the question is missing,
QuestionClosed if its status is not open, QuestionExpired if
`now ≥ expires_at`, Unauthorized if the responder lacks policy scope,
DuplicateAnswer (returning the prior outcome) if the source_event_id
was already recorded; on success it persists the Answer, moves the
question open→answered and the job waiting_for_input→resumed, enqueues
a resume action and returns `{job_id, accepted: true}`. -/
def validate_and_accept (now : Nat) (st : IngestState) (question_id : Nat)
    (source responder_id payload source_event_id : String) :
    IngestState × Except AcceptError AcceptOk :=
  match st.questions.find? (fun q => q.question_id = question_id) with
  | none => (st, .error .QuestionNotFound)
  | some q =>
    if q.qstatus ≠ .open_ then (st, .error .QuestionClosed)
    else if q.expires_at ≤ now then (st, .error .QuestionExpired)
    else if st.authorized.contains responder_id = false then (st, .error .Unauthorized)
    else
      match st.recorded.find? (fun r => r.1 = source_event_id) with
      | some r => (st, .error (.DuplicateAnswer r.2))
      | none =>
        let ans : Answer :=
          ⟨st.answers.length, question_id, source, responder_id, payload, source_event_id⟩
        let outcome : AcceptOk := ⟨q.job_id, true⟩
        (⟨closeQuestion st.questions question_id,
          resumeJobRow st.jobs q.job_id,
          st.answers ++ [ans],
          st.recorded ++ [(source_event_id, outcome)],
          st.resumeQueue ++ [q.job_id],
          st.authorized⟩,
         .ok outcome)

/-! ### Audit Trail (spec §4.6) -/

/-- An audit event row (spec §3). -/
structure AuditEvent where
  event_id : Nat
  job_id : Nat
  kind : String
  payload : String
  sequence : Nat
deriving DecidableEq, Repr

/-- The append-only audit log. -/
structure AuditLog where
  events : List AuditEvent
deriving DecidableEq, Repr

/-- The audit events of one job, in insertion order. -/
def jobEvents (log : AuditLog) (jid : Nat) : List AuditEvent :=
  log.events.filter (fun e => e.job_id = jid)

/-- Modelled from the spec (§4.6): `append(job_id, kind, payload)`
allocates the next per-job sequence number transactionally with the
insert; events are never edited. -/
def auditAppend (log : AuditLog) (jid : Nat) (kind payload : String) : AuditLog :=
  ⟨log.events ++ [⟨log.events.length, jid, kind, payload, (jobEvents log jid).length + 1⟩]⟩

/-- Runs a list of append operations `(job_id, kind, payload)`. -/
def runAppends (log : AuditLog) (ops : List (Nat × String × String)) : AuditLog :=
  ops.foldl (fun l o => auditAppend l o.1 o.2.1 o.2.2) log

/-! ### Ingress boundary (spec §7) -/

/-- Modelled from the spec (§7, data flow of §2): an external
invocation enters the queue only after a successful parse; a malformed
invocation is rejected synchronously and nothing is created or
enqueued. Returns the store, the action queue and the created job id
(`none` = rejected). -/
def ingressInvocation (st : JobStore) (queue : List Nat)
    (source externalEventId : String) (text : Option String)
    (fieldsOf : InvocationMode → JobFields) :
    JobStore × List Nat × Option Nat :=
  match parseInvocationMode text with
  | none => (st, queue, none)
  | some mode =>
    let r := handleExternalEvent st source externalEventId (fieldsOf mode)
    (r.store, queue ++ [r.job.job_id], some r.job.job_id)

/-! ## Theorems -/

/-- `List.find?` is the head of the filtered list. -/
theorem find?_eq_head?_filter {α : Type} (p : α → Bool) (l : List α) :
    l.find? p = (l.filter p).head? := by
  induction l with
  | nil => rfl
  | cons a l ih =>
    cases h : p a
    · simp only [List.find?_cons, List.filter_cons, h]
      simp only [Bool.false_eq_true, if_false]
      exact ih
    · simp [List.find?_cons, List.filter_cons, h]

/-- C8: `parseInvocationMode` returns `investigate` exactly when the
input, trimmed and lowercased, is `"@draftsman investigate"`, returns
`fix` exactly when that normalized form is `"@draftsman fix"`, and
returns `null` in every other case, including undefined input. -/
theorem parseInvocationMode_characterization (t : Option String) :
    (parseInvocationMode t = some .investigate ↔
      ∃ s, t = some s ∧ jsToLower (jsTrim s.data) = "@draftsman investigate".data) ∧
    (parseInvocationMode t = some .fix ↔
      ∃ s, t = some s ∧ jsToLower (jsTrim s.data) = "@draftsman fix".data) ∧
    parseInvocationMode none = none ∧
    (∀ s, t = some s →
      jsToLower (jsTrim s.data) ≠ "@draftsman investigate".data →
      jsToLower (jsTrim s.data) ≠ "@draftsman fix".data →
      parseInvocationMode t = none) := by
  cases t with
  | none => simp [parseInvocationMode]
  | some s =>
    refine ⟨?_, ?_, by simp [parseInvocationMode], ?_⟩
    · constructor
      · intro h
        refine ⟨s, rfl, ?_⟩
        by_contra hne
        simp [parseInvocationMode, hne] at h
      · rintro ⟨s2, hs2, hnorm⟩
        rw [Option.some_inj] at hs2
        subst hs2
        simp [parseInvocationMode, hnorm]
    · constructor
      · intro h
        refine ⟨s, rfl, ?_⟩
        by_contra hne
        simp [parseInvocationMode, hne] at h
      · rintro ⟨s2, hs2, hnorm⟩
        rw [Option.some_inj] at hs2
        subst hs2
        have hne : jsToLower (jsTrim s.data) ≠ "@draftsman investigate".data := by
          rw [hnorm]; decide
        simp [parseInvocationMode, hnorm, hne]
    · intro s2 hs2 h1 h2
      cases hs2
      simp [parseInvocationMode, h1, h2]

/-- C8 witness: the characterization applied to concrete inputs. -/
theorem parseInvocationMode_characterization_witness :
    parseInvocationMode (some "  @Draftsman FIX ") = some .fix ∧
    parseInvocationMode (some "hello there") = none :=
  ⟨((parseInvocationMode_characterization (some "  @Draftsman FIX ")).2.1).mpr
      ⟨"  @Draftsman FIX ", rfl, by decide⟩,
   (parseInvocationMode_characterization (some "hello there")).2.2.2
      "hello there" rfl (by decide) (by decide)⟩

/-- C9: `resolveWorkerPollMs` always yields a strictly positive (and, in
this model, finite by construction) poll interval: the parsed value when
it is finite and positive, and the 5000 ms default in every other case
(undefined, non-numeric strings, the empty string, zero, negatives,
NaN, and the infinities). -/
theorem resolveWorkerPollMs_safe (env : Option String) :
    0 < resolveWorkerPollMs env ∧
    (∀ q, jsStringToNumber env = .finite q → 0 < q → resolveWorkerPollMs env = q) ∧
    (∀ q, jsStringToNumber env = .finite q → q ≤ 0 →
      resolveWorkerPollMs env = 5000) ∧
    (jsStringToNumber env = .nan → resolveWorkerPollMs env = 5000) ∧
    (jsStringToNumber env = .posInf → resolveWorkerPollMs env = 5000) ∧
    (jsStringToNumber env = .negInf → resolveWorkerPollMs env = 5000) ∧
    resolveWorkerPollMs none = 5000 ∧
    resolveWorkerPollMs (some "") = 5000 ∧
    resolveWorkerPollMs (some "0") = 5000 ∧
    resolveWorkerPollMs (some "-1") = 5000 ∧
    resolveWorkerPollMs (some "not-a-number") = 5000 ∧
    resolveWorkerPollMs (some "Infinity") = 5000 ∧
    resolveWorkerPollMs (some "1500") = 1500 := by
  refine ⟨?_, ?_, ?_, ?_, ?_, ?_, by decide, by decide, by decide, by decide,
    by decide, by decide, by decide⟩
  · unfold resolveWorkerPollMs
    cases jsStringToNumber env with
    | finite q =>
      by_cases hq : q ≤ 0
      · simp only [hq, if_true]
        norm_num [DEFAULT_WORKER_POLL_MS]
      · simp only [hq, if_false]
        exact lt_of_not_le hq
    | nan => norm_num [DEFAULT_WORKER_POLL_MS]
    | posInf => norm_num [DEFAULT_WORKER_POLL_MS]
    | negInf => norm_num [DEFAULT_WORKER_POLL_MS]
  · intro q h hq
    simp only [resolveWorkerPollMs, h]
    exact if_neg (not_le.mpr hq)
  · intro q h hq
    simp only [resolveWorkerPollMs, h]
    rw [if_pos hq]
    norm_num [DEFAULT_WORKER_POLL_MS]
  · intro h
    simp only [resolveWorkerPollMs, h]
    norm_num [DEFAULT_WORKER_POLL_MS]
  · intro h
    simp only [resolveWorkerPollMs, h]
    norm_num [DEFAULT_WORKER_POLL_MS]
  · intro h
    simp only [resolveWorkerPollMs, h]
    norm_num [DEFAULT_WORKER_POLL_MS]

/-- C9 witness: the theorem applied at concrete environment values. -/
theorem resolveWorkerPollMs_safe_witness :
    resolveWorkerPollMs (some "1500") = 1500 ∧
    resolveWorkerPollMs (some "-3") = 5000 :=
  ⟨(resolveWorkerPollMs_safe (some "1500")).2.1 1500 (by decide) (by norm_num),
   (resolveWorkerPollMs_safe (some "-3")).2.2.1 (-3) (by decide) (by norm_num)⟩

/-- C10: the fetch handler's routing is exhaustive and fixed: `/health`
answers 200 with the health body (any method); `POST /webhooks/trello`
answers 200 with `accepted = true` and `mode = parseInvocationMode`
of the body text (mode `none` when the field is absent); every other
path/method combination answers 404 `"Not Found"`. -/
theorem createApiFetchHandler_routing (req : ApiRequest) :
    (req.pathname = "/health" → createApiFetchHandler req = ⟨200, .health⟩) ∧
    (req.pathname = "/webhooks/trello" → req.method = "POST" →
      createApiFetchHandler req =
        ⟨200, .webhook true (parseInvocationMode req.jsonBody.text)⟩) ∧
    (req.pathname = "/webhooks/trello" → req.method = "POST" →
      req.jsonBody.text = none →
      createApiFetchHandler req = ⟨200, .webhook true none⟩) ∧
    (req.pathname ≠ "/health" →
      ¬(req.pathname = "/webhooks/trello" ∧ req.method = "POST") →
      createApiFetchHandler req = ⟨404, .notFoundText⟩) := by
  refine ⟨?_, ?_, ?_, ?_⟩
  · intro h
    simp [createApiFetchHandler, h]
  · intro hp hm
    have hne : req.pathname ≠ "/health" := by rw [hp]; decide
    simp [createApiFetchHandler, hp, hm, hne]
  · intro hp hm ht
    have hne : req.pathname ≠ "/health" := by rw [hp]; decide
    simp [createApiFetchHandler, hp, hm, hne, ht, parseInvocationMode]
  · intro h1 h2
    rcases not_and_or.mp h2 with h | h
    · simp [createApiFetchHandler, h1, h]
    · by_cases hp : req.pathname = "/webhooks/trello"
      · simp [createApiFetchHandler, h1, hp, h]
      · simp [createApiFetchHandler, h1, hp]

/-- C10 witness: the routing theorem applied to three concrete requests. -/
theorem createApiFetchHandler_routing_witness :
    createApiFetchHandler ⟨"/health", "GET", ⟨none⟩⟩ = ⟨200, .health⟩ ∧
    createApiFetchHandler ⟨"/webhooks/trello", "POST", ⟨some "@draftsman fix"⟩⟩ =
      ⟨200, .webhook true (some .fix)⟩ ∧
    createApiFetchHandler ⟨"/unknown", "GET", ⟨none⟩⟩ = ⟨404, .notFoundText⟩ :=
  ⟨(createApiFetchHandler_routing ⟨"/health", "GET", ⟨none⟩⟩).1 rfl,
   by
    have h := (createApiFetchHandler_routing
      ⟨"/webhooks/trello", "POST", ⟨some "@draftsman fix"⟩⟩).2.1 rfl rfl
    rw [h]; decide,
   (createApiFetchHandler_routing ⟨"/unknown", "GET", ⟨none⟩⟩).2.2.2
      (by decide) (by simp)⟩

/-- C2: only the legal edges of §4.2 can succeed: a successful attempt
requires the persisted row to match the caller's expectation and the
edge to be legal, and bumps the version; a mismatch fails with the
stale-state error leaving the row unchanged; illegal edges always fail
and leave the row unchanged; any failure leaves the row unchanged; and
after a success, a concurrent attempt still carrying the old
expectation fails stale and leaves the row unchanged. -/
theorem transition_guard_edges (row expected : JobRow) (ns : JobStatus) :
    (∀ r, transition row expected ns = .ok r →
      row = expected ∧ legalEdge row.status ns = true ∧ r = ⟨ns, row.version + 1⟩) ∧
    (row ≠ expected →
      transition row expected ns = .error .staleState ∧
      (applyTransition row expected ns).1 = row) ∧
    (legalEdge row.status ns = false →
      (∃ e, transition row expected ns = .error e) ∧
      (applyTransition row expected ns).1 = row) ∧
    (∀ e, transition row expected ns = .error e →
      (applyTransition row expected ns).1 = row) ∧
    (∀ r, transition row expected ns = .ok r → ∀ ns2,
      transition r expected ns2 = .error .staleState ∧
      (applyTransition r expected ns2).1 = r) := by
  have hunch : ∀ e, transition row expected ns = .error e →
      (applyTransition row expected ns).1 = row := by
    intro e h
    rw [applyTransition, h]
  have hok : ∀ r, transition row expected ns = .ok r →
      row = expected ∧ legalEdge row.status ns = true ∧ r = ⟨ns, row.version + 1⟩ := by
    intro r h
    rw [transition] at h
    split_ifs at h with h1 h2
    · refine ⟨?_, h2, ?_⟩
      · cases row; cases expected
        simp only [JobRow.mk.injEq]
        simpa using h1
      · cases h
        rfl
  refine ⟨hok, ?_, ?_, hunch, ?_⟩
  · intro hne
    have hguard : ¬(row.status = expected.status ∧ row.version = expected.version) := by
      rintro ⟨hs, hv⟩
      apply hne
      cases row; cases expected
      simp_all
    have herr : transition row expected ns = .error .staleState := by
      rw [transition, if_neg hguard]
    exact ⟨herr, hunch _ herr⟩
  · intro hbad
    have herr : ∃ e, transition row expected ns = .error e := by
      rw [transition]
      by_cases h1 : row.status = expected.status ∧ row.version = expected.version
      · rw [if_pos h1, if_neg (by simp [hbad])]
        exact ⟨.illegalEdge, rfl⟩
      · rw [if_neg h1]
        exact ⟨.staleState, rfl⟩
    rcases herr with ⟨e, he⟩
    exact ⟨⟨e, he⟩, hunch e he⟩
  · intro r h ns2
    rcases hok r h with ⟨heq, _, hr⟩
    have hv : r.version = row.version + 1 := by rw [hr]
    have hguard : ¬(r.status = expected.status ∧ r.version = expected.version) := by
      rintro ⟨_, hv2⟩
      rw [hv, ← heq] at hv2
      omega
    have herr : transition r expected ns2 = .error .staleState := by
      rw [transition, if_neg hguard]
    refine ⟨herr, ?_⟩
    rw [applyTransition, herr]

/-- C2 witness: the guard theorem applied at concrete rows: a stale
expectation fails and leaves the row unchanged; an illegal edge fails
and leaves the row unchanged; after a successful queued→running step
a replayed attempt with the old expectation fails stale. -/
theorem transition_guard_edges_witness :
    (transition ⟨.running, 5⟩ ⟨.queued, 5⟩ .running = .error .staleState ∧
      (applyTransition ⟨.running, 5⟩ ⟨.queued, 5⟩ .running).1 = ⟨.running, 5⟩) ∧
    ((∃ e, transition ⟨.completed, 0⟩ ⟨.completed, 0⟩ .running = .error e) ∧
      (applyTransition ⟨.completed, 0⟩ ⟨.completed, 0⟩ .running).1 = ⟨.completed, 0⟩) ∧
    (transition ⟨.running, 1⟩ ⟨.queued, 0⟩ .canceled = .error .staleState ∧
      (applyTransition ⟨.running, 1⟩ ⟨.queued, 0⟩ .canceled).1 = ⟨.running, 1⟩) :=
  ⟨(transition_guard_edges ⟨.running, 5⟩ ⟨.queued, 5⟩ .running).2.1 (by decide),
   (transition_guard_edges ⟨.completed, 0⟩ ⟨.completed, 0⟩ .running).2.2.1 rfl,
   (transition_guard_edges ⟨.queued, 0⟩ ⟨.queued, 0⟩ .running).2.2.2.2
      ⟨.running, 1⟩ rfl .canceled⟩

/-- Freshly inserting through the gate when no job holds the key. -/
theorem create_or_get_fresh (st : JobStore) (k : String) (b : JobFields)
    (h : countKey st k = 0) :
    create_or_get st k b =
      ⟨⟨st.jobs ++ [⟨st.nextId, k, b⟩], st.nextId + 1⟩, ⟨st.nextId, k, b⟩, false⟩ := by
  have hfil : st.jobs.filter (fun j => j.dedup_key = k) = [] :=
    List.length_eq_zero.mp h
  have hfind : st.jobs.find? (fun j => j.dedup_key = k) = none := by
    rw [find?_eq_head?_filter, hfil]
    rfl
  rw [create_or_get, hfind]

/-- Returning the unique existing job through the gate. -/
theorem create_or_get_hit (st : JobStore) (k : String) (b : JobFields) (j : Job)
    (h : jobsWithKey st k = [j]) :
    create_or_get st k b = ⟨st, j, true⟩ := by
  have hfind : st.jobs.find? (fun x => x.dedup_key = k) = some j := by
    rw [find?_eq_head?_filter]
    rw [jobsWithKey] at h
    rw [h]
    rfl
  rw [create_or_get, hfind]

/-- The gate either leaves the store unchanged or appends one fresh job. -/
theorem create_or_get_store (st : JobStore) (k2 : String) (b : JobFields) :
    (create_or_get st k2 b).store = st ∨
    ((create_or_get st k2 b).store.jobs = st.jobs ++ [⟨st.nextId, k2, b⟩] ∧
      st.jobs.find? (fun x => x.dedup_key = k2) = none) := by
  rw [create_or_get]
  cases hfind : st.jobs.find? (fun x => x.dedup_key = k2) with
  | some j2 => exact Or.inl rfl
  | none => exact Or.inr ⟨rfl, rfl⟩

/-- A key uniquely held by one job keeps being held by exactly that job
across any further gate call. -/
theorem jobsWithKey_stable (st : JobStore) (k k2 : String) (b : JobFields) (j : Job)
    (h : jobsWithKey st k = [j]) :
    jobsWithKey (create_or_get st k2 b).store k = [j] := by
  rcases create_or_get_store st k2 b with hs | ⟨hs, hfind⟩
  · rw [hs]
    exact h
  · have hmem : j ∈ jobsWithKey st k := by
      rw [h]
      exact List.mem_singleton_self j
    rw [jobsWithKey] at hmem
    have hj := List.mem_filter.mp hmem
    have hk2 : ¬(k2 = k) := by
      intro he
      subst he
      exact absurd hj.2 (by simpa using List.find?_eq_none.mp hfind j hj.1)
    rw [jobsWithKey, hs, List.filter_append]
    rw [jobsWithKey] at h
    rw [h]
    simp [hk2]

/-- A key uniquely held by one job keeps being held by exactly that job
across any further event sequence. -/
theorem jobsWithKey_runEvents (k : String) (evs : List (String × String × JobFields))
    (st : JobStore) (j : Job) (h : jobsWithKey st k = [j]) :
    jobsWithKey (runEvents st evs) k = [j] := by
  induction evs generalizing st with
  | nil => exact h
  | cons e rest ih => exact ih _ (jobsWithKey_stable st k _ e.2.2 j h)

/-- C1: job creation is idempotent on the dedup key: on the first
delivery of `(source, external_event_id)` the gate inserts a new job
(deduped=false); a duplicate delivery returns the same job_id with
deduped=true and leaves the store unchanged; exactly one job holds the
key, and this stays true under any interleaved event traffic, with
every later duplicate delivery observing the same job_id. -/
theorem job_creation_idempotent (st : JobStore) (source eid : String)
    (b b2 b3 : JobFields) (evs : List (String × String × JobFields))
    (hfresh : countKey st (dedupKeyOf source eid) = 0) :
    (handleExternalEvent st source eid b).deduped = false ∧
    (handleExternalEvent (handleExternalEvent st source eid b).store
        source eid b2).deduped = true ∧
    (handleExternalEvent (handleExternalEvent st source eid b).store
        source eid b2).job.job_id = (handleExternalEvent st source eid b).job.job_id ∧
    (handleExternalEvent (handleExternalEvent st source eid b).store
        source eid b2).store = (handleExternalEvent st source eid b).store ∧
    countKey (handleExternalEvent st source eid b).store (dedupKeyOf source eid) = 1 ∧
    countKey (runEvents (handleExternalEvent st source eid b).store evs)
        (dedupKeyOf source eid) = 1 ∧
    (handleExternalEvent (runEvents (handleExternalEvent st source eid b).store evs)
        source eid b3).deduped = true ∧
    (handleExternalEvent (runEvents (handleExternalEvent st source eid b).store evs)
        source eid b3).job.job_id = (handleExternalEvent st source eid b).job.job_id := by
  set k := dedupKeyOf source eid with hk
  have h1 : create_or_get st k b =
      ⟨⟨st.jobs ++ [⟨st.nextId, k, b⟩], st.nextId + 1⟩, ⟨st.nextId, k, b⟩, false⟩ :=
    create_or_get_fresh st k b hfresh
  have hfil : st.jobs.filter (fun j => j.dedup_key = k) = [] :=
    List.length_eq_zero.mp hfresh
  have hjwk : jobsWithKey (handleExternalEvent st source eid b).store k =
      [⟨st.nextId, k, b⟩] := by
    show jobsWithKey (create_or_get st k b).store k = _
    rw [h1, jobsWithKey]
    dsimp only
    rw [List.filter_append, hfil]
    simp
  have h2 : create_or_get (handleExternalEvent st source eid b).store k b2 =
      ⟨(handleExternalEvent st source eid b).store, ⟨st.nextId, k, b⟩, true⟩ :=
    create_or_get_hit _ k b2 _ hjwk
  have hrun := jobsWithKey_runEvents k evs _ _ hjwk
  have h3 : create_or_get (runEvents (handleExternalEvent st source eid b).store evs) k b3 =
      ⟨runEvents (handleExternalEvent st source eid b).store evs, ⟨st.nextId, k, b⟩, true⟩ :=
    create_or_get_hit _ k b3 _ hrun
  have hjob1 : (handleExternalEvent st source eid b).job = ⟨st.nextId, k, b⟩ := by
    show (create_or_get st k b).job = _
    rw [h1]
  refine ⟨?_, ?_, ?_, ?_, ?_, ?_, ?_, ?_⟩
  · show (create_or_get st k b).deduped = false
    rw [h1]
  · show (create_or_get (handleExternalEvent st source eid b).store k b2).deduped = true
    rw [h2]
  · show (create_or_get (handleExternalEvent st source eid b).store k b2).job.job_id = _
    rw [h2, hjob1]
  · show (create_or_get (handleExternalEvent st source eid b).store k b2).store = _
    rw [h2]
  · show (jobsWithKey (handleExternalEvent st source eid b).store k).length = 1
    rw [hjwk]
    rfl
  · show (jobsWithKey (runEvents (handleExternalEvent st source eid b).store evs) k).length = 1
    rw [hrun]
    rfl
  · show (create_or_get (runEvents (handleExternalEvent st source eid b).store evs)
        k b3).deduped = true
    rw [h3]
  · show (create_or_get (runEvents (handleExternalEvent st source eid b).store evs)
        k b3).job.job_id = _
    rw [h3, hjob1]

/-- C1 witness: the scenario of §8, event `(trello, "a1")` delivered
twice from an empty store: the duplicate returns deduped=true, the job
ids agree, and exactly one job holds the key even after an unrelated
event. -/
theorem job_creation_idempotent_witness :
    (handleExternalEvent
        (handleExternalEvent ⟨[], 0⟩ "trello" "a1" ⟨"trello", some .investigate, "acme/app"⟩).store
        "trello" "a1" ⟨"trello", none, "acme/app"⟩).deduped = true ∧
    (handleExternalEvent
        (handleExternalEvent ⟨[], 0⟩ "trello" "a1" ⟨"trello", some .investigate, "acme/app"⟩).store
        "trello" "a1" ⟨"trello", none, "acme/app"⟩).job.job_id =
      (handleExternalEvent ⟨[], 0⟩ "trello" "a1"
        ⟨"trello", some .investigate, "acme/app"⟩).job.job_id ∧
    countKey
        (runEvents
          (handleExternalEvent ⟨[], 0⟩ "trello" "a1"
            ⟨"trello", some .investigate, "acme/app"⟩).store
          [("slack", "b9", ⟨"slack", some .fix, "acme/app"⟩)])
        (dedupKeyOf "trello" "a1") = 1 :=
  ⟨(job_creation_idempotent ⟨[], 0⟩ "trello" "a1" ⟨"trello", some .investigate, "acme/app"⟩
      ⟨"trello", none, "acme/app"⟩ ⟨"trello", none, "acme/app"⟩
      [("slack", "b9", ⟨"slack", some .fix, "acme/app"⟩)] rfl).2.1,
   (job_creation_idempotent ⟨[], 0⟩ "trello" "a1" ⟨"trello", some .investigate, "acme/app"⟩
      ⟨"trello", none, "acme/app"⟩ ⟨"trello", none, "acme/app"⟩
      [("slack", "b9", ⟨"slack", some .fix, "acme/app"⟩)] rfl).2.2.1,
   (job_creation_idempotent ⟨[], 0⟩ "trello" "a1" ⟨"trello", some .investigate, "acme/app"⟩
      ⟨"trello", none, "acme/app"⟩ ⟨"trello", none, "acme/app"⟩
      [("slack", "b9", ⟨"slack", some .fix, "acme/app"⟩)] rfl).2.2.2.2.2.1⟩

/-- C3: a question that reaches its deadline unanswered expires exactly
once: the expiry handler is a no-op on any question that is not open,
re-checks the wall clock before expiring, and on expiry closes the
question and moves the job to the terminal `expired` state, after which
replays are no-ops; an answer accepted before the deadline closes the
question so expiry can never fire afterwards; and when an answer and
the expiry timer race in either order, exactly one of resumed/expired
wins. -/
theorem question_expiry_exactly_once (st : PausedJobState) (now now2 t1 t2 : Nat)
    (hq : st.question = .open_) (hj : st.job.status = .waiting_for_input) :
    (∀ s : PausedJobState, ∀ n, s.question ≠ .open_ → expireHandler n s = s) ∧
    (now < st.expires_at → expireHandler now st = st) ∧
    (st.expires_at ≤ now →
      (expireHandler now st).question = .expired ∧
      (expireHandler now st).job.status = .expired ∧
      expireHandler now2 (expireHandler now st) = expireHandler now st) ∧
    (t1 < st.expires_at →
      (acceptAnswer t1 st).question = .answered ∧
      (acceptAnswer t1 st).job.status = .resumed ∧
      expireHandler now2 (acceptAnswer t1 st) = acceptAnswer t1 st) ∧
    (t1 < st.expires_at → st.expires_at ≤ t2 →
      (expireHandler t2 (acceptAnswer t1 st)).job.status = .resumed ∧
      (acceptAnswer t1 (expireHandler t2 st)).job.status = .expired) := by
  have hnoop : ∀ s : PausedJobState, ∀ n, s.question ≠ .open_ → expireHandler n s = s := by
    intro s n hne
    rw [expireHandler, if_neg hne]
  have hexp : ∀ n, st.expires_at ≤ n →
      expireHandler n st = ⟨⟨.expired, st.job.version + 1⟩, .expired, st.expires_at⟩ := by
    intro n hn
    rw [expireHandler, if_pos hq, if_pos hn, if_pos hj]
  have hacc : ∀ t, t < st.expires_at →
      acceptAnswer t st = ⟨⟨.resumed, st.job.version + 1⟩, .answered, st.expires_at⟩ := by
    intro t ht
    rw [acceptAnswer, if_pos hq, if_pos ht, if_pos hj]
  refine ⟨hnoop, ?_, ?_, ?_, ?_⟩
  · intro hlt
    rw [expireHandler, if_pos hq, if_neg (not_le.mpr hlt)]
  · intro hle
    rw [hexp now hle]
    refine ⟨rfl, rfl, ?_⟩
    exact hnoop _ now2 (by simp)
  · intro ht1
    rw [hacc t1 ht1]
    refine ⟨rfl, rfl, ?_⟩
    exact hnoop _ now2 (by simp)
  · intro ht1 ht2
    constructor
    · rw [hacc t1 ht1, hnoop _ t2 (by simp)]
    · rw [hexp t2 ht2, acceptAnswer, if_neg (by simp)]

/-- C3 witness: deadline 100: expiry at t=100 marks the question
expired; an answer at t=50 followed by the timer at t=100 leaves the
job resumed; the timer at t=100 followed by an answer attempt leaves
the job expired. -/
theorem question_expiry_exactly_once_witness :
    (expireHandler 100 ⟨⟨.waiting_for_input, 0⟩, .open_, 100⟩).question = .expired ∧
    (expireHandler 100 (acceptAnswer 50
        ⟨⟨.waiting_for_input, 0⟩, .open_, 100⟩)).job.status = .resumed ∧
    (acceptAnswer 50 (expireHandler 100
        ⟨⟨.waiting_for_input, 0⟩, .open_, 100⟩)).job.status = .expired :=
  ⟨((question_expiry_exactly_once ⟨⟨.waiting_for_input, 0⟩, .open_, 100⟩
      100 7 50 100 rfl rfl).2.2.1 (by norm_num)).1,
   ((question_expiry_exactly_once ⟨⟨.waiting_for_input, 0⟩, .open_, 100⟩
      100 7 50 100 rfl rfl).2.2.2.2 (by norm_num) (by norm_num)).1,
   ((question_expiry_exactly_once ⟨⟨.waiting_for_input, 0⟩, .open_, 100⟩
      100 7 50 100 rfl rfl).2.2.2.2 (by norm_num) (by norm_num)).2⟩

/-- The success branch of `validate_and_accept`, given that every guard
passes. -/
theorem validate_and_accept_success (now : Nat) (st : IngestState) (qid : Nat)
    (src rid pl seid : String) (q : Question)
    (hfind : st.questions.find? (fun x => x.question_id = qid) = some q)
    (hopen : q.qstatus = .open_) (hexp : now < q.expires_at)
    (hauth : st.authorized.contains rid = true)
    (hrec : st.recorded.find? (fun x => x.1 = seid) = none) :
    validate_and_accept now st qid src rid pl seid =
      (⟨closeQuestion st.questions qid, resumeJobRow st.jobs q.job_id,
        st.answers ++ [⟨st.answers.length, qid, src, rid, pl, seid⟩],
        st.recorded ++ [(seid, ⟨q.job_id, true⟩)],
        st.resumeQueue ++ [q.job_id], st.authorized⟩,
       .ok ⟨q.job_id, true⟩) := by
  unfold validate_and_accept
  rw [hfind]
  dsimp only
  rw [if_neg (by simp [hopen]), if_neg (not_le.mpr hexp),
    if_neg (by rw [hauth]; simp), hrec]

/-- `validate_and_accept` rejects with `QuestionClosed` when the found
question is not open. -/
theorem validate_and_accept_closed (now : Nat) (st : IngestState) (qid : Nat)
    (src rid pl seid : String) (q : Question)
    (hfind : st.questions.find? (fun x => x.question_id = qid) = some q)
    (hq : q.qstatus ≠ .open_) :
    validate_and_accept now st qid src rid pl seid = (st, .error .QuestionClosed) := by
  unfold validate_and_accept
  rw [hfind]
  dsimp only
  rw [if_pos hq]

/-- A successful `validate_and_accept` implies every guard passed, and
determines the resulting state and outcome. -/
theorem validate_and_accept_ok_inv (now : Nat) (st : IngestState) (qid : Nat)
    (src rid pl seid : String) (o : AcceptOk)
    (h : (validate_and_accept now st qid src rid pl seid).2 = .ok o) :
    ∃ q, st.questions.find? (fun x => x.question_id = qid) = some q ∧
      q.qstatus = .open_ ∧ now < q.expires_at ∧
      st.authorized.contains rid = true ∧
      st.recorded.find? (fun x => x.1 = seid) = none ∧
      o = ⟨q.job_id, true⟩ := by
  cases hfind : st.questions.find? (fun x => x.question_id = qid) with
  | none =>
    rw [validate_and_accept] at h
    rw [hfind] at h
    simp at h
  | some q =>
    rw [validate_and_accept] at h
    rw [hfind] at h
    dsimp only at h
    split_ifs at h with h1 h2 h3
    cases hrec : st.recorded.find? (fun x => x.1 = seid) with
    | some r =>
      rw [hrec] at h
      simp at h
    | none =>
      rw [hrec] at h
      simp at h
      exact ⟨q, rfl, not_not.mp h1, not_le.mp h2,
        by simpa using h3, rfl, h.symm⟩

/-- On any typed rejection, `validate_and_accept` leaves the store
unchanged (the first component is the input state). -/
theorem validate_and_accept_fst (now : Nat) (st : IngestState) (qid : Nat)
    (src rid pl seid : String) :
    (validate_and_accept now st qid src rid pl seid).1 = st ∨
    ∃ o, (validate_and_accept now st qid src rid pl seid).2 = .ok o := by
  unfold validate_and_accept
  cases st.questions.find? (fun x => x.question_id = qid) with
  | none => exact Or.inl rfl
  | some q =>
    dsimp only
    split_ifs
    · exact Or.inl rfl
    · exact Or.inl rfl
    · exact Or.inl rfl
    · cases st.recorded.find? (fun x => x.1 = seid) with
      | some r => exact Or.inl rfl
      | none => exact Or.inr ⟨_, rfl⟩

/-- Closing a question keeps every question id in place and marks the
matching one answered; `find?` sees the answered row. -/
theorem find?_closeQuestion (qs : List Question) (qid : Nat) (q : Question)
    (hfind : qs.find? (fun x => x.question_id = qid) = some q) :
    (closeQuestion qs qid).find? (fun x => x.question_id = qid) =
      some { q with qstatus := .answered } := by
  rw [closeQuestion, List.find?_map]
  have hp : ((fun x : Question => decide (x.question_id = qid)) ∘
      (fun q2 : Question =>
        if q2.question_id = qid then { q2 with qstatus := .answered } else q2)) =
      fun x : Question => decide (x.question_id = qid) := by
    funext x
    by_cases hx : x.question_id = qid <;> simp [hx]
  rw [hp]
  rw [hfind]
  have hq : q.question_id = qid := by simpa using List.find?_some hfind
  simp [hq]

/-- C4: the validation ladder of §4.5: QuestionNotFound when the
question is missing; QuestionClosed when it is not open; QuestionExpired
when now ≥ expires_at; Unauthorized when the responder lacks policy
scope; DuplicateAnswer returning the prior outcome when source_event_id
was already recorded; otherwise the Answer is persisted, the question
moves open→answered, the job moves waiting_for_input→resumed, one
resume action is enqueued and `{job_id, accepted := true}` is returned. -/
theorem validate_and_accept_ladder (now : Nat) (st : IngestState) (qid : Nat)
    (src rid pl seid : String) :
    (st.questions.find? (fun x => x.question_id = qid) = none →
      validate_and_accept now st qid src rid pl seid = (st, .error .QuestionNotFound)) ∧
    (∀ q, st.questions.find? (fun x => x.question_id = qid) = some q →
      (q.qstatus ≠ .open_ →
        validate_and_accept now st qid src rid pl seid = (st, .error .QuestionClosed)) ∧
      (q.qstatus = .open_ → q.expires_at ≤ now →
        validate_and_accept now st qid src rid pl seid = (st, .error .QuestionExpired)) ∧
      (q.qstatus = .open_ → now < q.expires_at → st.authorized.contains rid = false →
        validate_and_accept now st qid src rid pl seid = (st, .error .Unauthorized)) ∧
      (∀ r, q.qstatus = .open_ → now < q.expires_at → st.authorized.contains rid = true →
        st.recorded.find? (fun x => x.1 = seid) = some r →
        validate_and_accept now st qid src rid pl seid =
          (st, .error (.DuplicateAnswer r.2))) ∧
      (q.qstatus = .open_ → now < q.expires_at → st.authorized.contains rid = true →
        st.recorded.find? (fun x => x.1 = seid) = none →
        validate_and_accept now st qid src rid pl seid =
          (⟨closeQuestion st.questions qid, resumeJobRow st.jobs q.job_id,
            st.answers ++ [⟨st.answers.length, qid, src, rid, pl, seid⟩],
            st.recorded ++ [(seid, ⟨q.job_id, true⟩)],
            st.resumeQueue ++ [q.job_id], st.authorized⟩,
           .ok ⟨q.job_id, true⟩))) ∧
    (∀ qs qid2, ∀ q2 ∈ qs, q2.question_id = qid2 →
      ({ q2 with qstatus := .answered } : Question) ∈ closeQuestion qs qid2) ∧
    (∀ jobs jid, ∀ p ∈ jobs, p.1 = jid → p.2.status = .waiting_for_input →
      ((p.1, ⟨.resumed, p.2.version + 1⟩) : Nat × JobRow) ∈ resumeJobRow jobs jid) := by
  refine ⟨?_, ?_, ?_, ?_⟩
  · intro hfind
    unfold validate_and_accept
    rw [hfind]
  · intro q hfind
    refine ⟨?_, ?_, ?_, ?_, ?_⟩
    · intro hq
      exact validate_and_accept_closed now st qid src rid pl seid q hfind hq
    · intro hopen hle
      unfold validate_and_accept
      rw [hfind]
      dsimp only
      rw [if_neg (by simp [hopen]), if_pos hle]
    · intro hopen hlt hauth
      unfold validate_and_accept
      rw [hfind]
      dsimp only
      rw [if_neg (by simp [hopen]), if_neg (not_le.mpr hlt), if_pos hauth]
    · intro r hopen hlt hauth hrec
      unfold validate_and_accept
      rw [hfind]
      dsimp only
      rw [if_neg (by simp [hopen]), if_neg (not_le.mpr hlt),
        if_neg (by rw [hauth]; simp), hrec]
    · intro hopen hlt hauth hrec
      exact validate_and_accept_success now st qid src rid pl seid q
        hfind hopen hlt hauth hrec
  · intro qs qid2 q2 hmem hid
    have h := List.mem_map_of_mem
      (fun q3 => if q3.question_id = qid2 then { q3 with qstatus := .answered } else q3) hmem
    dsimp only at h
    rw [if_pos hid] at h
    exact h
  · intro jobs jid p hmem hp1 hp2
    have h := List.mem_map_of_mem
      (fun p2 => if p2.1 = jid ∧ p2.2.status = .waiting_for_input then
        (p2.1, (⟨.resumed, p2.2.version + 1⟩ : JobRow)) else p2) hmem
    dsimp only at h
    rw [if_pos ⟨hp1, hp2⟩] at h
    exact h

/-- C4 witness: the ladder applied to a concrete store: an expired
question is rejected with QuestionExpired; a fresh valid answer against
an open question succeeds with the job id and one enqueued resume
action. -/
theorem validate_and_accept_ladder_witness :
    validate_and_accept 30 ⟨[⟨1, 2, 0, 0, 30, .open_⟩], [(2, ⟨.waiting_for_input, 0⟩)],
        [], [], [], ["carter"]⟩ 1 "slack" "carter" "yes" "e1" =
      (⟨[⟨1, 2, 0, 0, 30, .open_⟩], [(2, ⟨.waiting_for_input, 0⟩)],
        [], [], [], ["carter"]⟩, .error .QuestionExpired) ∧
    validate_and_accept 10 ⟨[⟨1, 2, 0, 0, 30, .open_⟩], [(2, ⟨.waiting_for_input, 0⟩)],
        [], [], [], ["carter"]⟩ 1 "slack" "carter" "yes" "e1" =
      (⟨[⟨1, 2, 0, 0, 30, .answered⟩], [(2, ⟨.resumed, 1⟩)],
        [⟨0, 1, "slack", "carter", "yes", "e1"⟩], [("e1", ⟨2, true⟩)],
        [2], ["carter"]⟩, .ok ⟨2, true⟩) := by
  constructor
  · have h := ((validate_and_accept_ladder 30
      ⟨[⟨1, 2, 0, 0, 30, .open_⟩], [(2, ⟨.waiting_for_input, 0⟩)], [], [], [], ["carter"]⟩
      1 "slack" "carter" "yes" "e1").2.1 ⟨1, 2, 0, 0, 30, .open_⟩ rfl).2.1 rfl (by norm_num)
    exact h
  · have h := ((validate_and_accept_ladder 10
      ⟨[⟨1, 2, 0, 0, 30, .open_⟩], [(2, ⟨.waiting_for_input, 0⟩)], [], [], [], ["carter"]⟩
      1 "slack" "carter" "yes" "e1").2.1 ⟨1, 2, 0, 0, 30, .open_⟩ rfl).2.2.2.2
      rfl (by norm_num) (by decide) rfl
    rw [h]
    rfl

/-- C5: answer acceptance is idempotent on (question_id,
source_event_id): a successful acceptance persists exactly one Answer
and enqueues exactly one resume action, and resubmitting an answer for
the same question afterwards is rejected and leaves the whole ingest
state — answers and resume queue included — unchanged, so exactly one
Answer and one resume action exist across both submissions. -/
theorem answer_acceptance_idempotent (now now2 : Nat) (st : IngestState) (qid : Nat)
    (src rid pl seid src2 rid2 pl2 : String) (o : AcceptOk)
    (h : (validate_and_accept now st qid src rid pl seid).2 = .ok o) :
    (validate_and_accept now st qid src rid pl seid).1.answers.length =
      st.answers.length + 1 ∧
    (validate_and_accept now st qid src rid pl seid).1.resumeQueue.length =
      st.resumeQueue.length + 1 ∧
    validate_and_accept now2 (validate_and_accept now st qid src rid pl seid).1
        qid src2 rid2 pl2 seid =
      ((validate_and_accept now st qid src rid pl seid).1, .error .QuestionClosed) := by
  rcases validate_and_accept_ok_inv now st qid src rid pl seid o h with
    ⟨q, hfind, hopen, hexp, hauth, hrec, ho⟩
  have hsucc := validate_and_accept_success now st qid src rid pl seid q
    hfind hopen hexp hauth hrec
  rw [hsucc]
  dsimp only
  refine ⟨by simp, by simp, ?_⟩
  have hfind2 := find?_closeQuestion st.questions qid q hfind
  exact validate_and_accept_closed now2 _ qid src2 rid2 pl2 seid _ hfind2 (by simp)

/-- C5 witness: the same answer submitted twice against a concrete open
question: the replay is rejected and the state is left exactly as after
the first acceptance. -/
theorem answer_acceptance_idempotent_witness :
    validate_and_accept 99 (validate_and_accept 10 ⟨[⟨1, 2, 0, 0, 30, .open_⟩],
        [(2, ⟨.waiting_for_input, 0⟩)], [], [], [], ["carter"]⟩
        1 "slack" "carter" "yes" "e1").1 1 "trello" "carter" "yes" "e1" =
      ((validate_and_accept 10 ⟨[⟨1, 2, 0, 0, 30, .open_⟩],
        [(2, ⟨.waiting_for_input, 0⟩)], [], [], [], ["carter"]⟩
        1 "slack" "carter" "yes" "e1").1, .error .QuestionClosed) :=
  (answer_acceptance_idempotent 10 99 ⟨[⟨1, 2, 0, 0, 30, .open_⟩],
      [(2, ⟨.waiting_for_input, 0⟩)], [], [], [], ["carter"]⟩
      1 "slack" "carter" "yes" "e1" "trello" "carter" "yes" ⟨2, true⟩ rfl).2.2

/-- One append extends a job's event list by exactly its own event. -/
theorem jobEvents_append (log : AuditLog) (j0 : Nat) (k p : String) (j : Nat) :
    jobEvents (auditAppend log j0 k p) j =
      jobEvents log j ++
        (if j0 = j then
          [⟨log.events.length, j0, k, p, (jobEvents log j0).length + 1⟩] else []) := by
  rw [jobEvents, auditAppend]
  dsimp only
  rw [List.filter_append]
  have h1 : List.filter (fun e => decide (e.job_id = j)) log.events = jobEvents log j := rfl
  rw [h1]
  congr 1
  by_cases hj : j0 = j
  · simp [hj]
  · simp [hj]

/-- Appending preserves the per-job `1, 2, …, n` sequence shape. -/
theorem auditAppend_seqs (log : AuditLog) (j0 : Nat) (k p : String)
    (h : ∀ j, (jobEvents log j).map (fun e => e.sequence) =
      List.range' 1 (jobEvents log j).length) :
    ∀ j, (jobEvents (auditAppend log j0 k p) j).map (fun e => e.sequence) =
      List.range' 1 (jobEvents (auditAppend log j0 k p) j).length := by
  intro j
  rw [jobEvents_append]
  by_cases hj : j0 = j
  · rw [if_pos hj]
    rw [List.map_append, h j]
    subst hj
    simp only [List.map_cons, List.map_nil, List.length_append, List.length_cons,
      List.length_nil, Nat.zero_add, List.range'_concat]
    simp [Nat.add_comm]
  · rw [if_neg hj]
    simp [h j]

/-- Any run of appends preserves the per-job sequence shape. -/
theorem runAppends_seqs (ops : List (Nat × String × String)) (log : AuditLog)
    (h : ∀ j, (jobEvents log j).map (fun e => e.sequence) =
      List.range' 1 (jobEvents log j).length) :
    ∀ j, (jobEvents (runAppends log ops) j).map (fun e => e.sequence) =
      List.range' 1 (jobEvents (runAppends log ops) j).length := by
  induction ops generalizing log with
  | nil => exact h
  | cons o rest ih => exact ih _ (auditAppend_seqs log o.1 o.2.1 o.2.2 h)

/-- Replaying a job's events recovers exactly the (kind, payload)
history appended for that job, in order. -/
theorem runAppends_history (ops : List (Nat × String × String)) (log : AuditLog) (j : Nat) :
    (jobEvents (runAppends log ops) j).map (fun e => (e.kind, e.payload)) =
      (jobEvents log j).map (fun e => (e.kind, e.payload)) ++
        (ops.filter (fun o => o.1 = j)).map (fun o => (o.2.1, o.2.2)) := by
  induction ops generalizing log with
  | nil => simp [runAppends]
  | cons o rest ih =>
    have hstep : runAppends log (o :: rest) =
        runAppends (auditAppend log o.1 o.2.1 o.2.2) rest := rfl
    rw [hstep, ih, jobEvents_append, List.filter_cons]
    by_cases hj : o.1 = j
    · rw [if_pos hj]
      simp [hj]
    · rw [if_neg hj]
      simp [hj]

/-- A run of appends only ever appends: the old events stay a prefix. -/
theorem runAppends_append_only (ops : List (Nat × String × String)) (log : AuditLog) :
    ∃ suffix, (runAppends log ops).events = log.events ++ suffix := by
  induction ops generalizing log with
  | nil => exact ⟨[], by simp [runAppends]⟩
  | cons o rest ih =>
    rcases ih (auditAppend log o.1 o.2.1 o.2.2) with ⟨suf, hsuf⟩
    refine ⟨⟨log.events.length, o.1, o.2.1, o.2.2, (jobEvents log o.1).length + 1⟩ :: suf, ?_⟩
    have hstep : runAppends log (o :: rest) =
        runAppends (auditAppend log o.1 o.2.1 o.2.2) rest := rfl
    rw [hstep, hsuf]
    simp [auditAppend]

/-- C6: the audit trail is append-only (running any operation list only
appends a suffix, never edits), and for every job the sequence numbers
read back in order are exactly `1, 2, …, n` (`List.range' 1 n`):
strictly increasing and gapless, never repeating or skipping a number;
replaying a job's events from an empty log in sequence order
reconstructs exactly that job's appended (kind, payload) history. -/
theorem audit_trail_gapless (ops : List (Nat × String × String)) (log : AuditLog) (j : Nat)
    (h : ∀ j2, (jobEvents log j2).map (fun e => e.sequence) =
      List.range' 1 (jobEvents log j2).length) :
    (∃ suffix, (runAppends log ops).events = log.events ++ suffix) ∧
    (∀ j2, (jobEvents (runAppends log ops) j2).map (fun e => e.sequence) =
      List.range' 1 (jobEvents (runAppends log ops) j2).length) ∧
    ((jobEvents (runAppends ⟨[]⟩ ops) j).map (fun e => e.sequence) =
      List.range' 1 (jobEvents (runAppends ⟨[]⟩ ops) j).length) ∧
    ((jobEvents (runAppends ⟨[]⟩ ops) j).map (fun e => (e.kind, e.payload)) =
      (ops.filter (fun o => o.1 = j)).map (fun o => (o.2.1, o.2.2))) := by
  refine ⟨runAppends_append_only ops log, runAppends_seqs ops log h,
    runAppends_seqs ops ⟨[]⟩ (fun _ => rfl) j, ?_⟩
  have hh := runAppends_history ops ⟨[]⟩ j
  simpa [jobEvents] using hh

/-- C6 witness: three appends across two jobs from the empty log: job 1
reads back sequences `[1, 2]` and exactly its own history. -/
theorem audit_trail_gapless_witness :
    ((jobEvents (runAppends ⟨[]⟩
        [(1, "created", "p"), (2, "created", "q"), (1, "running", "r")]) 1).map
      (fun e => e.sequence) =
      List.range' 1 ((jobEvents (runAppends ⟨[]⟩
        [(1, "created", "p"), (2, "created", "q"), (1, "running", "r")]) 1).length)) ∧
    ((jobEvents (runAppends ⟨[]⟩
        [(1, "created", "p"), (2, "created", "q"), (1, "running", "r")]) 1).map
      (fun e => (e.kind, e.payload)) =
      ([(1, "created", "p"), (2, "created", "q"), (1, "running", "r")].filter
        (fun o => o.1 = 1)).map (fun o => (o.2.1, o.2.2))) :=
  ⟨(audit_trail_gapless [(1, "created", "p"), (2, "created", "q"), (1, "running", "r")]
      ⟨[]⟩ 1 (fun _ => rfl)).2.2.1,
   (audit_trail_gapless [(1, "created", "p"), (2, "created", "q"), (1, "running", "r")]
      ⟨[]⟩ 1 (fun _ => rfl)).2.2.2⟩

/-- C7: invalid input is rejected synchronously at the ingress boundary
and never enqueued: any typed rejection from `validate_and_accept`
(expired question, unauthorized responder, closed or missing question,
duplicate) leaves the ingest state — its resume queue included —
unchanged, and a malformed invocation creates no job and enqueues no
action. -/
theorem invalid_input_never_enqueued (now : Nat) (st : IngestState) (qid : Nat)
    (src rid pl seid : String) (jst : JobStore) (queue : List Nat)
    (source eid : String) (text : Option String)
    (fieldsOf : InvocationMode → JobFields) :
    (∀ e, (validate_and_accept now st qid src rid pl seid).2 = .error e →
      (validate_and_accept now st qid src rid pl seid).1 = st ∧
      (validate_and_accept now st qid src rid pl seid).1.resumeQueue = st.resumeQueue) ∧
    (parseInvocationMode text = none →
      ingressInvocation jst queue source eid text fieldsOf = (jst, queue, none)) := by
  constructor
  · intro e he
    rcases validate_and_accept_fst now st qid src rid pl seid with h1 | ⟨o, ho⟩
    · exact ⟨h1, by rw [h1]⟩
    · rw [he] at ho
      simp at ho
  · intro h
    rw [ingressInvocation, h]

/-- C7 witness: an expired answer submission leaves the resume queue
empty, and a malformed invocation text creates no job and enqueues
nothing. -/
theorem invalid_input_never_enqueued_witness :
    (validate_and_accept 30 ⟨[⟨1, 2, 0, 0, 30, .open_⟩], [(2, ⟨.waiting_for_input, 0⟩)],
        [], [], [], ["carter"]⟩ 1 "slack" "carter" "yes" "e1").1.resumeQueue = [] ∧
    ingressInvocation ⟨[], 0⟩ [] "trello" "a1" (some "hello")
        (fun m => ⟨"trello", some m, "acme/app"⟩) = (⟨[], 0⟩, [], none) :=
  ⟨((invalid_input_never_enqueued 30 ⟨[⟨1, 2, 0, 0, 30, .open_⟩],
      [(2, ⟨.waiting_for_input, 0⟩)], [], [], [], ["carter"]⟩ 1 "slack" "carter" "yes" "e1"
      ⟨[], 0⟩ [] "trello" "a1" (some "hello")
      (fun m => ⟨"trello", some m, "acme/app"⟩)).1 .QuestionExpired rfl).2,
   (invalid_input_never_enqueued 30 ⟨[⟨1, 2, 0, 0, 30, .open_⟩],
      [(2, ⟨.waiting_for_input, 0⟩)], [], [], [], ["carter"]⟩ 1 "slack" "carter" "yes" "e1"
      ⟨[], 0⟩ [] "trello" "a1" (some "hello")
      (fun m => ⟨"trello", some m, "acme/app"⟩)).2 rfl⟩
